import Mathlib

/-!
Verification development for the Simple Email Sandbox thread/message core.

The definitions below are a shallow embedding of the TypeScript sources:
`src/schema.ts` (data model), `src/db/service.ts` (storage operations over
SQLite, modelled as pure operations on an explicit database state), and
`src/app.ts` (the request handlers `/emails/write`, `/emails/reply`,
`/emails/reply-all`, `/messages/:messageId`).

JavaScript-specific behaviour (string truthiness, `String.prototype.trim`,
`Number.parseInt`, decimal stringification of numbers, insertion-ordered
`Set`) is modelled explicitly by the `jsTrim`, `jsParseInt`, `natToStr`,
`intToStr` and `jsSetInsert` functions.
-/

/-- Whitespace as recognised by JavaScript `trim` / `parseInt`
(ASCII whitespace characters). -/
def isJsWs (c : Char) : Bool :=
  c = ' ' || c = '\t' || c = '\n' || c = '\r' || c = '\x0b' || c = '\x0c'

/-- Decimal digit test, via code points (`'0'` to `'9'`). -/
def isDigitChar (c : Char) : Bool :=
  48 ≤ c.toNat && c.toNat ≤ 57

/-- `String.prototype.trim` on the underlying character list. -/
def jsTrimList (l : List Char) : List Char :=
  ((l.dropWhile isJsWs).reverse.dropWhile isJsWs).reverse

/-- `String.prototype.trim`. -/
def jsTrim (s : String) : String :=
  ⟨jsTrimList s.data⟩

/-- Decimal value of a digit-character list (most significant first). -/
def digitsVal (l : List Char) : Nat :=
  l.foldl (fun a c => a * 10 + (c.toNat - 48)) 0

/-- The optional sign prefix consumed by `parseInt`. -/
def jsSignSplit (l : List Char) : Int × List Char :=
  match l with
  | '-' :: r => (-1, r)
  | '+' :: r => (1, r)
  | rest => (1, rest)

/-- `Number.parseInt(s, 10)`: skip leading whitespace, optional sign,
read a maximal run of decimal digits; `none` models `NaN`. -/
def jsParseInt (s : String) : Option Int :=
  let l := s.data.dropWhile isJsWs
  let sr := jsSignSplit l
  let ds := sr.2.takeWhile isDigitChar
  if ds = [] then none else some (sr.1 * (digitsVal ds : Int))

/-- Decimal digit characters, fuel-indexed for structural recursion.
For `n < fuel` this is the decimal representation of `n`,
most significant digit first. -/
def natDigitsAux : Nat → Nat → List Char
  | 0, _ => []
  | fuel + 1, n =>
    if n < 10 then [Char.ofNat (48 + n)]
    else natDigitsAux fuel (n / 10) ++ [Char.ofNat (48 + n % 10)]

/-- Decimal digit characters of a natural number (JS `String(n)` for
non-negative integers), most significant first. -/
def natDigits (n : Nat) : List Char :=
  natDigitsAux (n + 1) n

/-- JS `String(n)` for a non-negative integer. -/
def natToStr (n : Nat) : String :=
  ⟨natDigits n⟩

/-- JS `String(i)` for an integer. -/
def intToStr (i : Int) : String :=
  if i < 0 then "-" ++ natToStr i.natAbs else natToStr i.toNat

/-- The case-insensitive test `/^re:/i.test(s)`. -/
def reiTest (s : String) : Bool :=
  match s.data with
  | c1 :: c2 :: c3 :: _ => (c1 = 'r' || c1 = 'R') && (c2 = 'e' || c2 = 'E') && (c3 = ':')
  | _ => false

/-- `DEFAULT_SUBJECT` from `src/app.ts`. -/
def DEFAULT_SUBJECT : String := "No subject"

/-- `replySubject` from `src/app.ts` (the spec's `computeReplySubject`). -/
def replySubject (subject : String) : String :=
  if subject = "" || jsTrim subject = "" then "Re: " ++ DEFAULT_SUBJECT
  else
    let trimmed := jsTrim subject
    if reiTest trimmed then trimmed else "Re: " ++ trimmed

/-- JS truthiness of an optional string value (`undefined` and `""` are
falsy, every other string truthy). -/
def truthy? : Option String → Bool
  | none => false
  | some s => s ≠ ""

/-- A row of the `groups` table (`src/schema.ts` `Group`: the persisted
columns `id` and `agents`; timestamps are irrelevant to the claims and
omitted, the `threads` field is derived from the `threads` table). -/
structure GroupRow where
  id : String
  agents : List String
deriving Repr, DecidableEq

/-- A row of the `threads` table (`src/schema.ts` `Thread`: persisted
columns; `messages` is derived from the `messages` table, the timestamp
is omitted). -/
structure ThreadRow where
  threadId : String
  groupId : String
  subject : String
  createdBy : String
  lastIndex : String
deriving Repr, DecidableEq

/-- A row of the `messages` table (`src/schema.ts` `Message` as persisted
by `DatabaseService.createMessage`; the timestamp is omitted).
`fromAgent`/`toAgents` are the `from_agent`/`to_agents` columns. -/
structure MessageRow where
  messageid : String
  threadId : String
  groupId : String
  fromAgent : String
  toAgents : List String
  subject : String
  body : String
deriving Repr, DecidableEq

/-- The whole SQLite database state. Row lists are in `rowid` order
(insertion order), which is what `ORDER BY id ASC` returns. -/
structure DB where
  groups : List GroupRow
  threads : List ThreadRow
  messages : List MessageRow
deriving Repr, DecidableEq

/-- The freshly initialised (empty) database. -/
def emptyDB : DB :=
  { groups := [], threads := [], messages := [] }

/-- `DatabaseService.getGroup`. -/
def dbGetGroup (st : DB) (groupId : String) : Option GroupRow :=
  st.groups.find? (fun g => g.id = groupId)

/-- `DatabaseService.createGroup`. -/
def dbCreateGroup (st : DB) (g : GroupRow) : DB :=
  { st with groups := st.groups ++ [g] }

/-- `DatabaseService.updateGroup` (rewrites the `agents` column). -/
def dbUpdateGroup (st : DB) (g : GroupRow) : DB :=
  { st with groups := st.groups.map (fun x => if x.id = g.id then { x with agents := g.agents } else x) }

/-- `DatabaseService.getThread` (the row part; the derived message-id
list is `listMessagesByThread`). -/
def dbGetThread (st : DB) (threadId : String) : Option ThreadRow :=
  st.threads.find? (fun t => t.threadId = threadId)

/-- `DatabaseService.createThread`. -/
def dbCreateThread (st : DB) (t : ThreadRow) : DB :=
  { st with threads := st.threads ++ [t] }

/-- `DatabaseService.updateThreadLastIndex`. -/
def dbUpdateThreadLastIndex (st : DB) (threadId lastIndex : String) : DB :=
  { st with threads := st.threads.map (fun t => if t.threadId = threadId then { t with lastIndex := lastIndex } else t) }

/-- `DatabaseService.createMessage`: insert the row, then update the
owning thread's `last_index`. -/
def dbCreateMessage (st : DB) (m : MessageRow) : DB :=
  dbUpdateThreadLastIndex { st with messages := st.messages ++ [m] } m.threadId m.messageid

/-- `DatabaseService.getMessage`: first row matching the composite key
`(thread_id, message_id)`. -/
def dbGetMessage (st : DB) (threadId messageId : String) : Option MessageRow :=
  st.messages.find? (fun m => m.threadId = threadId && m.messageid = messageId)

/-- `DatabaseService.listMessagesByThread`: the matching `message_id`s in
creation order, each refetched through `getMessage` with nulls dropped. -/
def listMessagesByThread (st : DB) (threadId : String) : List MessageRow :=
  (st.messages.filter (fun m => m.threadId = threadId)).filterMap
    (fun r => dbGetMessage st threadId r.messageid)

/-- The row filter used by `DatabaseService.findMessagesById`
(`message_id` match, plus `group_id` when a truthy `groupId` is given). -/
def matchesMsgId (messageId : String) (groupId? : Option String) (m : MessageRow) : Bool :=
  m.messageid = messageId && (if truthy? groupId? then m.groupId = groupId?.getD "" else true)

/-- `DatabaseService.findMessagesById`: matching rows in `ORDER BY id
DESC` order, refetched through `getMessage` with nulls dropped. -/
def findMessagesById (st : DB) (messageId : String) (groupId? : Option String) : List MessageRow :=
  ((st.messages.filter (matchesMsgId messageId groupId?)).reverse).filterMap
    (fun r => dbGetMessage st r.threadId r.messageid)

/-- The in-memory `schema.Message` object built by the `Message`
constructor (before persistence). -/
structure MessageObj where
  groupId : String
  threadId : String
  messageid : String
  fromAgent : String
  toAgents : List String
  subject : String
  body : String
  spawnedThread : Option ThreadRow
deriving Repr, DecidableEq

/-- The `Message` constructor from `src/schema.ts`. `randomUUID()` is
modelled by the `freshTid` argument (consulted only when no truthy
`threadId` is passed). A falsy `threadId` spawns a new thread whose
subject is `subject ?? ""`, whose `lastIndex` starts at `"0"` and is then
set by `addMessage` to the new message id (itself read from `lastIndex`,
hence `"0"`). Otherwise the message id is the placeholder `"0"`, to be
overwritten by the caller. -/
def mkMessage (groupId fromAgent : String) (toAgents : List String) (body : String)
    (threadId? : Option String) (subject? : Option String) (freshTid : String) : MessageObj :=
  if truthy? threadId? = false then
    let newThread : ThreadRow :=
      { threadId := freshTid, groupId := groupId, subject := subject?.getD "",
        createdBy := fromAgent, lastIndex := "0" }
    let mid := newThread.lastIndex
    { groupId := groupId, threadId := newThread.threadId, messageid := mid,
      fromAgent := fromAgent, toAgents := toAgents, subject := subject?.getD "",
      body := body, spawnedThread := some { newThread with lastIndex := mid } }
  else
    { groupId := groupId, threadId := threadId?.getD "", messageid := "0",
      fromAgent := fromAgent, toAgents := toAgents, subject := subject?.getD "",
      body := body, spawnedThread := none }

/-- The row persisted for a message object (`subject || ""` keeps the
already-defaulted subject string). -/
def rowOf (m : MessageObj) : MessageRow :=
  { messageid := m.messageid, threadId := m.threadId, groupId := m.groupId,
    fromAgent := m.fromAgent, toAgents := m.toAgents, subject := m.subject, body := m.body }

/-- The `to` field of a JSON request body as seen by
`normalizeRecipients` (array of strings, single string, or absent). -/
inductive ToField where
  | undef : ToField
  | str (s : String) : ToField
  | arr (l : List String) : ToField
deriving Repr, DecidableEq

/-- JS truthiness of the `to` field (arrays are always truthy). -/
def toTruthy : ToField → Bool
  | .undef => false
  | .str s => s ≠ ""
  | .arr _ => true

/-- `normalizeRecipients` from `src/app.ts`. -/
def normalizeRecipients : ToField → List String
  | .arr l => (l.filter (fun v => jsTrim v ≠ "")).map jsTrim
  | .str s => if jsTrim s ≠ "" then [jsTrim s] else []
  | .undef => []

/-- `nextMessageId` from `src/app.ts`: `parseInt(lastIndex, 10) + 1`
stringified, with `NaN` mapped to `"0"`. -/
def nextMessageId (thread : ThreadRow) : String :=
  match jsParseInt thread.lastIndex with
  | none => "0"
  | some k => intToStr (k + 1)

/-- `ensureGroup` from `src/app.ts`: get-or-create (the created group has
an empty agent roster), returning the group and the possibly updated
state. -/
def ensureGroup (st : DB) (groupId : String) : GroupRow × DB :=
  match dbGetGroup st groupId with
  | some g => (g, st)
  | none => ({ id := groupId, agents := [] }, dbCreateGroup st { id := groupId, agents := [] })

/-- The responses the embedded handlers can produce (status line and the
data relevant to the claims). -/
inductive Resp where
  | missingFields : Resp
  | emptyRecipients : Resp
  | groupNotFound (groupId : String) : Resp
  | threadNotFound (threadId : String) : Resp
  | groupMismatch (threadId groupId : String) : Resp
  | invalidSender (fromAgent : String) : Resp
  | invalidRecipients (bad : List String) : Resp
  | targetNotFound : Resp
  | noValidRecipients : Resp
  | internalError : Resp
  | created (messageId threadId : String) (newThreadCreated : Bool) : Resp
  | messageNotFound (messageId : String) : Resp
  | multipleMatches (locations : List (String × String)) : Resp
  | foundMessage (m : MessageRow) : Resp
deriving Repr, DecidableEq

/-- The `POST /emails/write` handler from `src/app.ts`. -/
def writeEmail (st : DB) (groupId fromAgent : String) (toRaw : ToField) (body : String)
    (subject? : Option String) (freshTid : String) : DB × Resp :=
  if groupId = "" || fromAgent = "" || !(toTruthy toRaw) || body = "" then (st, .missingFields)
  else
    let recipients := normalizeRecipients toRaw
    if recipients = [] then (st, .emptyRecipients)
    else
      let gs := ensureGroup st groupId
      if !(gs.1.agents.contains fromAgent) then (gs.2, .invalidSender fromAgent)
      else
        let invalid := recipients.filter (fun a => !(gs.1.agents.contains a))
        if invalid ≠ [] then (gs.2, .invalidRecipients invalid)
        else
          let msg := mkMessage groupId fromAgent recipients body none
            (some (subject?.getD DEFAULT_SUBJECT)) freshTid
          match msg.spawnedThread with
          | none => (gs.2, .internalError)
          | some th =>
            let st3 := dbCreateMessage (dbCreateThread gs.2 th) (rowOf msg)
            (st3, .created msg.messageid msg.threadId true)

/-- `resolveReplyTarget` as inlined in the reply handlers: a truthy
`replyToMessageId` selects the composite key, otherwise the last message
of the thread (`.at(-1)`). -/
def resolveReplyTarget (st : DB) (threadId : String) (replyToMessageId? : Option String) :
    Option MessageRow :=
  if truthy? replyToMessageId? then dbGetMessage st threadId (replyToMessageId?.getD "")
  else (listMessagesByThread st threadId).getLast?

/-- The reply recipient derivation: `[target.from].filter(a => a !== from)`. -/
def replyRecipients (targetFrom replier : String) : List String :=
  [targetFrom].filter (fun a => a ≠ replier)

/-- Insertion into a JS `Set` modelled as an insertion-ordered
duplicate-free list. -/
def jsSetInsert (l : List String) (x : String) : List String :=
  if l.contains x then l else l ++ [x]

/-- The reply-all recipient derivation: add `target.from`, then each of
`target.to`, then delete the replier, then `Array.from`. -/
def replyAllRecipients (targetFrom : String) (targetTo : List String) (replier : String) :
    List String :=
  ((targetTo.foldl jsSetInsert (jsSetInsert [] targetFrom)).filter (fun a => a ≠ replier))

/-- The `POST /emails/reply` handler from `src/app.ts`. -/
def replyEmail (st : DB) (groupId? : Option String) (threadId : String)
    (replyToMessageId? : Option String) (fromAgent body : String) : DB × Resp :=
  if fromAgent = "" || threadId = "" || body = "" then (st, .missingFields)
  else
    match dbGetThread st threadId with
    | none => (st, .threadNotFound threadId)
    | some thread =>
      if truthy? groupId? && !(groupId?.getD "" = thread.groupId) then
        (st, .groupMismatch threadId (groupId?.getD ""))
      else
        let gs := ensureGroup st thread.groupId
        if !(gs.1.agents.contains fromAgent) then (gs.2, .invalidSender fromAgent)
        else
          match resolveReplyTarget gs.2 threadId replyToMessageId? with
          | none => (gs.2, .targetNotFound)
          | some target =>
            let recipients := replyRecipients target.fromAgent fromAgent
            if recipients = [] then (gs.2, .noValidRecipients)
            else
              let subj := replySubject thread.subject
              let msg := mkMessage thread.groupId fromAgent recipients body
                (some threadId) (some subj) ""
              let msg2 := { msg with messageid := nextMessageId thread }
              (dbCreateMessage gs.2 (rowOf msg2), .created msg2.messageid msg2.threadId false)

/-- The `POST /emails/reply-all` handler from `src/app.ts`. -/
def replyAllEmail (st : DB) (groupId? : Option String) (threadId : String)
    (replyToMessageId? : Option String) (fromAgent body : String) : DB × Resp :=
  if fromAgent = "" || threadId = "" || body = "" then (st, .missingFields)
  else
    match dbGetThread st threadId with
    | none => (st, .threadNotFound threadId)
    | some thread =>
      if truthy? groupId? && !(groupId?.getD "" = thread.groupId) then
        (st, .groupMismatch threadId (groupId?.getD ""))
      else
        let gs := ensureGroup st thread.groupId
        if !(gs.1.agents.contains fromAgent) then (gs.2, .invalidSender fromAgent)
        else
          match resolveReplyTarget gs.2 threadId replyToMessageId? with
          | none => (gs.2, .targetNotFound)
          | some target =>
            let recipients := replyAllRecipients target.fromAgent target.toAgents fromAgent
            if recipients = [] then (gs.2, .noValidRecipients)
            else
              let subj := replySubject thread.subject
              let msg := mkMessage thread.groupId fromAgent recipients body
                (some threadId) (some subj) ""
              let msg2 := { msg with messageid := nextMessageId thread }
              (dbCreateMessage gs.2 (rowOf msg2), .created msg2.messageid msg2.threadId false)

/-- The `GET /messages/:messageId` handler from `src/app.ts`
(read-only): optional group existence check, composite-key fetch when
`threadId` is given, otherwise the zero/one/many disambiguation policy on
`findMessagesById`. -/
def getMessageHandler (st : DB) (messageId : String) (threadId? groupId? : Option String) : Resp :=
  if truthy? groupId? && (dbGetGroup st (groupId?.getD "")).isNone then
    .groupNotFound (groupId?.getD "")
  else if truthy? threadId? then
    match dbGetMessage st (threadId?.getD "") messageId with
    | none => .messageNotFound messageId
    | some m => .foundMessage m
  else
    match findMessagesById st messageId groupId? with
    | [] => .messageNotFound messageId
    | [m] => .foundMessage m
    | ms => .multipleMatches (ms.map (fun m => (m.threadId, m.groupId)))

example : replySubject "" = "Re: No subject" := by decide
example : replySubject "  " = "Re: No subject" := by decide
example : replySubject "Re: X" = "Re: X" := by decide
example : replySubject " re: x " = "re: x" := by decide
example : replySubject "Hello" = "Re: Hello" := by decide
example : natToStr 120 = "120" := by decide
example : jsParseInt "  12ab" = some 12 := by decide
example : jsParseInt "-3" = some (-3) := by decide
example : jsParseInt "x" = none := by decide
example : jsTrim "  a b\t" = "a b" := by decide

/-- A sample group used by concrete witnesses: `@g` with agents
`alice`, `bob`, `carol`. -/
def sampleGroup : GroupRow :=
  { id := "@g", agents := ["alice", "bob", "carol"] }

/-- A database holding just the sample group. -/
def sampleDB0 : DB :=
  { groups := [sampleGroup], threads := [], messages := [] }

/-- The database after `writeEmail` from alice to bob on `sampleDB0`. -/
def sampleDB1 : DB :=
  (writeEmail sampleDB0 "@g" "alice" (.arr ["bob"]) "hello" (some "Hi") "T1").1

example :
    (writeEmail sampleDB0 "@g" "alice" (.arr ["bob"]) "hello" (some "Hi") "T1").2 =
      .created "0" "T1" true := by decide

example :
    sampleDB1 =
      { groups := [sampleGroup],
        threads := [{ threadId := "T1", groupId := "@g", subject := "Hi",
                      createdBy := "alice", lastIndex := "0" }],
        messages := [{ messageid := "0", threadId := "T1", groupId := "@g",
                       fromAgent := "alice", toAgents := ["bob"], subject := "Hi",
                       body := "hello" }] } := by decide

example :
    (replyEmail sampleDB1 none "T1" none "bob" "hey").2 = .created "1" "T1" false := by decide

example :
    ((replyEmail sampleDB1 none "T1" none "bob" "hey").1.messages.map
      (fun m => (m.messageid, m.fromAgent, m.toAgents, m.subject))) =
      [("0", "alice", ["bob"], "Hi"), ("1", "bob", ["alice"], "Re: Hi")] := by decide

example :
    ((replyEmail sampleDB1 none "T1" none "bob" "hey").1.threads.map
      (fun t => t.lastIndex)) = ["1"] := by decide

/-- C5: `computeReplySubject` of an empty or blank subject is
`"Re: No subject"`; of a non-empty subject whose trimmed form matches the
case-insensitive prefix `re:` it is the trimmed subject unchanged;
otherwise it is `"Re: "` followed by the trimmed subject. -/
theorem computeReplySubject_cases (s : String) :
    (jsTrim s = "" → replySubject s = "Re: No subject") ∧
    (jsTrim s ≠ "" → reiTest (jsTrim s) = true → replySubject s = jsTrim s) ∧
    (jsTrim s ≠ "" → reiTest (jsTrim s) = false → replySubject s = "Re: " ++ jsTrim s) := by
  have hempty : s = "" → jsTrim s = "" := by intro h; rw [h]; rfl
  refine ⟨?_, ?_, ?_⟩
  · intro h
    simp [replySubject, h]
    decide
  · intro h1 h2
    have hs : ¬(s = "") := fun e => h1 (hempty e)
    simp [replySubject, hs, h1, h2]
  · intro h1 h2
    have hs : ¬(s = "") := fun e => h1 (hempty e)
    simp [replySubject, hs, h1, h2]

/-- Witness for C5: the three cases at concrete subjects. -/
theorem computeReplySubject_cases_witness :
    replySubject "" = "Re: No subject" ∧
    replySubject " Re: x" = jsTrim " Re: x" ∧
    replySubject "hi" = "Re: " ++ jsTrim "hi" :=
  ⟨(computeReplySubject_cases "").1 (by decide),
   (computeReplySubject_cases " Re: x").2.1 (by decide) (by decide),
   (computeReplySubject_cases "hi").2.2 (by decide) (by decide)⟩

/-- C9: a `createMessage` call without `threadId` spawns a thread whose
subject is the provided subject, or the empty string when no subject is
provided (`subject ?? ""` in the `Message` constructor). -/
theorem createMessage_newThread_subject (groupId fromAgent : String) (toAgents : List String)
    (body : String) (subject? : Option String) (freshTid : String) :
    ∃ th, (mkMessage groupId fromAgent toAgents body none subject? freshTid).spawnedThread = some th ∧
      th.subject = (match subject? with | some s => s | none => "") := by
  refine ⟨_, rfl, ?_⟩
  show (subject?.getD "") = _
  cases subject? <;> rfl

/-- C1: a `createMessage` call that spawns a new thread (the
`/emails/write` handler) reports `messageId = "0"` and
`newThreadCreated = true`; a call appending to an existing thread (the
reply handlers) reports `messageId` as the stringified successor of the
integer parsed from the persisted thread's `lastIndex`, and
`newThreadCreated = false`. -/
theorem createMessage_ids :
    (∀ st groupId fromAgent toRaw body subject? freshTid st2 mid tid ntc,
      writeEmail st groupId fromAgent toRaw body subject? freshTid = (st2, .created mid tid ntc) →
      mid = "0" ∧ ntc = true) ∧
    (∀ st gid? tid rid? fromAgent body th n st2 mid tid2 ntc,
      dbGetThread st tid = some th → jsParseInt th.lastIndex = some n →
      replyEmail st gid? tid rid? fromAgent body = (st2, .created mid tid2 ntc) →
      mid = intToStr (n + 1) ∧ ntc = false) ∧
    (∀ st gid? tid rid? fromAgent body th n st2 mid tid2 ntc,
      dbGetThread st tid = some th → jsParseInt th.lastIndex = some n →
      replyAllEmail st gid? tid rid? fromAgent body = (st2, .created mid tid2 ntc) →
      mid = intToStr (n + 1) ∧ ntc = false) := by
  refine ⟨?_, ?_, ?_⟩
  · intro st groupId fromAgent toRaw body subject? freshTid st2 mid tid ntc h
    simp only [writeEmail] at h
    split at h
    · simp at h
    · split at h
      · simp at h
      · split at h
        · simp at h
        · split at h
          · simp at h
          · split at h
            · simp at h
            · simp only [Prod.mk.injEq, Resp.created.injEq] at h
              exact ⟨h.2.1.symm, h.2.2.2.symm⟩
  · intro st gid? tid rid? fromAgent body th n st2 mid tid2 ntc hth hparse h
    simp only [replyEmail] at h
    split at h
    · simp at h
    · rw [hth] at h
      simp only [Option.some.injEq] at h
      split at h
      · simp at h
      · split at h
        · simp at h
        · split at h
          · simp at h
          · split at h
            · simp at h
            · simp only [Prod.mk.injEq, Resp.created.injEq] at h
              have hmid : mid = nextMessageId th := h.2.1.symm
              rw [hmid]
              unfold nextMessageId
              rw [hparse]
              exact ⟨rfl, h.2.2.2.symm⟩
  · intro st gid? tid rid? fromAgent body th n st2 mid tid2 ntc hth hparse h
    simp only [replyAllEmail] at h
    split at h
    · simp at h
    · rw [hth] at h
      simp only [Option.some.injEq] at h
      split at h
      · simp at h
      · split at h
        · simp at h
        · split at h
          · simp at h
          · split at h
            · simp at h
            · simp only [Prod.mk.injEq, Resp.created.injEq] at h
              have hmid : mid = nextMessageId th := h.2.1.symm
              rw [hmid]
              unfold nextMessageId
              rw [hparse]
              exact ⟨rfl, h.2.2.2.symm⟩

/-- Witness for C1: a concrete write creating thread `T1` with message
`"0"`, and a concrete reply on that thread producing message `"1"`. -/
theorem createMessage_ids_witness :
    (("0" : String) = "0" ∧ true = true) ∧
    (("1" : String) = intToStr (0 + 1) ∧ false = false) :=
  ⟨createMessage_ids.1 sampleDB0 "@g" "alice" (.arr ["bob"]) "hello" (some "Hi") "T1"
      sampleDB1 "0" "T1" true (by decide),
   createMessage_ids.2.1 sampleDB1 none "T1" none "bob" "hey"
      { threadId := "T1", groupId := "@g", subject := "Hi", createdBy := "alice", lastIndex := "0" }
      0 (replyEmail sampleDB1 none "T1" none "bob" "hey").1 "1" "T1" false
      (by decide) (by decide) (by decide)⟩

/-- `ensureGroup` never changes the `threads` table. -/
theorem ensureGroup_threads (st : DB) (groupId : String) :
    ((ensureGroup st groupId).2).threads = st.threads := by
  unfold ensureGroup
  cases dbGetGroup st groupId <;> rfl

/-- `ensureGroup` never changes the `messages` table. -/
theorem ensureGroup_messages (st : DB) (groupId : String) :
    ((ensureGroup st groupId).2).messages = st.messages := by
  unfold ensureGroup
  cases dbGetGroup st groupId <;> rfl

/-- `ensureGroup` either leaves the groups table alone or appends the
newly created empty-roster group. -/
theorem ensureGroup_groups (st : DB) (groupId : String) :
    ((ensureGroup st groupId).2).groups = st.groups ∨
    ((ensureGroup st groupId).2).groups = st.groups ++ [{ id := groupId, agents := [] }] := by
  unfold ensureGroup
  cases dbGetGroup st groupId
  · right; rfl
  · left; rfl

/-- `getMessage` only reads the `messages` table. -/
theorem dbGetMessage_congr (st st2 : DB) (h : st2.messages = st.messages)
    (threadId messageId : String) :
    dbGetMessage st2 threadId messageId = dbGetMessage st threadId messageId := by
  unfold dbGetMessage
  rw [h]

/-- `listMessagesByThread` only reads the `messages` table. -/
theorem listMessagesByThread_congr (st st2 : DB) (h : st2.messages = st.messages)
    (threadId : String) :
    listMessagesByThread st2 threadId = listMessagesByThread st threadId := by
  unfold listMessagesByThread dbGetMessage
  rw [h]

/-- `resolveReplyTarget` only reads the `messages` table. -/
theorem resolveReplyTarget_congr (st st2 : DB) (h : st2.messages = st.messages)
    (threadId : String) (rid? : Option String) :
    resolveReplyTarget st2 threadId rid? = resolveReplyTarget st threadId rid? := by
  unfold resolveReplyTarget
  rw [dbGetMessage_congr st st2 h, listMessagesByThread_congr st st2 h]

/-- Under a found thread, matching group and valid sender, the
`/emails/reply` handler reduces to target resolution, recipient
derivation and message creation. -/
theorem replyEmail_reduce (st : DB) (gid? : Option String) (tid : String) (rid? : Option String)
    (fromAgent body : String) (th : ThreadRow)
    (hf : fromAgent ≠ "") (htid : tid ≠ "") (hb : body ≠ "")
    (hth : dbGetThread st tid = some th)
    (hgm : (truthy? gid? && !(decide (gid?.getD "" = th.groupId))) = false)
    (hsender : (ensureGroup st th.groupId).1.agents.contains fromAgent = true) :
    replyEmail st gid? tid rid? fromAgent body =
      (match resolveReplyTarget (ensureGroup st th.groupId).2 tid rid? with
       | none => ((ensureGroup st th.groupId).2, .targetNotFound)
       | some target =>
         if replyRecipients target.fromAgent fromAgent = [] then
           ((ensureGroup st th.groupId).2, .noValidRecipients)
         else
           (dbCreateMessage (ensureGroup st th.groupId).2
              (rowOf { mkMessage th.groupId fromAgent (replyRecipients target.fromAgent fromAgent)
                         body (some tid) (some (replySubject th.subject)) "" with
                       messageid := nextMessageId th }),
            .created (nextMessageId th)
              (mkMessage th.groupId fromAgent (replyRecipients target.fromAgent fromAgent)
                 body (some tid) (some (replySubject th.subject)) "").threadId false)) := by
  simp [replyEmail, hth, hf, htid, hb, hgm, hsender]
  intro hno
  exact absurd (by simpa using hsender) hno

/-- Under a found thread, matching group and valid sender, the
`/emails/reply-all` handler reduces to target resolution, recipient
derivation and message creation. -/
theorem replyAllEmail_reduce (st : DB) (gid? : Option String) (tid : String) (rid? : Option String)
    (fromAgent body : String) (th : ThreadRow)
    (hf : fromAgent ≠ "") (htid : tid ≠ "") (hb : body ≠ "")
    (hth : dbGetThread st tid = some th)
    (hgm : (truthy? gid? && !(decide (gid?.getD "" = th.groupId))) = false)
    (hsender : (ensureGroup st th.groupId).1.agents.contains fromAgent = true) :
    replyAllEmail st gid? tid rid? fromAgent body =
      (match resolveReplyTarget (ensureGroup st th.groupId).2 tid rid? with
       | none => ((ensureGroup st th.groupId).2, .targetNotFound)
       | some target =>
         if replyAllRecipients target.fromAgent target.toAgents fromAgent = [] then
           ((ensureGroup st th.groupId).2, .noValidRecipients)
         else
           (dbCreateMessage (ensureGroup st th.groupId).2
              (rowOf { mkMessage th.groupId fromAgent
                         (replyAllRecipients target.fromAgent target.toAgents fromAgent)
                         body (some tid) (some (replySubject th.subject)) "" with
                       messageid := nextMessageId th }),
            .created (nextMessageId th)
              (mkMessage th.groupId fromAgent
                 (replyAllRecipients target.fromAgent target.toAgents fromAgent)
                 body (some tid) (some (replySubject th.subject)) "").threadId false)) := by
  simp [replyAllEmail, hth, hf, htid, hb, hgm, hsender]
  intro hno
  exact absurd (by simpa using hsender) hno

/-- Appending a message leaves previously stored messages in place and
adds the new row at the end. -/
theorem dbCreateMessage_messages (st : DB) (m : MessageRow) :
    (dbCreateMessage st m).messages = st.messages ++ [m] := rfl

/-- C7: for a reply on a resolved target, the derived recipient list is
`[target.from]` with the replier excluded; when the target's sender is
the replier itself the handler fails with the "no valid recipients"
validation error and stores no message, otherwise it stores a message
addressed exactly to `target.from`. -/
theorem reply_recipients_spec (st : DB) (gid? : Option String) (tid : String)
    (rid? : Option String) (fromAgent body : String) (th : ThreadRow) (target : MessageRow)
    (hf : fromAgent ≠ "") (htid : tid ≠ "") (hb : body ≠ "")
    (hth : dbGetThread st tid = some th)
    (hgm : (truthy? gid? && !(decide (gid?.getD "" = th.groupId))) = false)
    (hsender : (ensureGroup st th.groupId).1.agents.contains fromAgent = true)
    (htgt : resolveReplyTarget (ensureGroup st th.groupId).2 tid rid? = some target) :
    replyRecipients target.fromAgent fromAgent =
      (if target.fromAgent = fromAgent then [] else [target.fromAgent]) ∧
    (target.fromAgent = fromAgent →
      replyEmail st gid? tid rid? fromAgent body =
        ((ensureGroup st th.groupId).2, .noValidRecipients) ∧
      ((replyEmail st gid? tid rid? fromAgent body).1).messages = st.messages) ∧
    (target.fromAgent ≠ fromAgent →
      ∃ m, (replyEmail st gid? tid rid? fromAgent body).1.messages = st.messages ++ [m] ∧
        m.toAgents = [target.fromAgent]) := by
  have hred := replyEmail_reduce st gid? tid rid? fromAgent body th hf htid hb hth hgm hsender
  rw [htgt] at hred
  dsimp only at hred
  refine ⟨?_, ?_, ?_⟩
  · by_cases h : target.fromAgent = fromAgent <;> simp [replyRecipients, h]
  · intro he
    have hrec : replyRecipients target.fromAgent fromAgent = [] := by
      simp [replyRecipients, he]
    rw [hrec] at hred
    simp only [if_pos rfl] at hred
    refine ⟨hred, ?_⟩
    rw [hred]
    exact ensureGroup_messages st th.groupId
  · intro hne
    have hrec : replyRecipients target.fromAgent fromAgent = [target.fromAgent] := by
      simp [replyRecipients, hne]
    rw [hrec] at hred
    rw [if_neg (List.cons_ne_nil _ _)] at hred
    rw [hred]
    refine ⟨rowOf { mkMessage th.groupId fromAgent [target.fromAgent] body (some tid)
        (some (replySubject th.subject)) "" with messageid := nextMessageId th }, ?_, ?_⟩
    · show (dbCreateMessage _ _).messages = _
      rw [dbCreateMessage_messages, ensureGroup_messages]
    · simp [rowOf, mkMessage, truthy?, htid]

/-- Witness for C7: alice replying to her own message in `sampleDB1`
derives an empty recipient list and fails without storing anything. -/
theorem reply_recipients_spec_witness :
    replyEmail sampleDB1 none "T1" none "alice" "hi" =
      ((ensureGroup sampleDB1 "@g").2, .noValidRecipients) ∧
    (replyEmail sampleDB1 none "T1" none "alice" "hi").1.messages = sampleDB1.messages :=
  (reply_recipients_spec sampleDB1 none "T1" none "alice" "hi"
    ⟨"T1", "@g", "Hi", "alice", "0"⟩ ⟨"0", "T1", "@g", "alice", ["bob"], "Hi", "hello"⟩
    (by decide) (by decide) (by decide) (by decide) (by decide) (by decide) (by decide)).2.1 rfl

/-- Membership in a JS set after one insertion. -/
theorem mem_jsSetInsert (l : List String) (x a : String) :
    a ∈ jsSetInsert l x ↔ a ∈ l ∨ a = x := by
  unfold jsSetInsert
  split
  · rename_i h
    simp only [List.elem_iff] at h
    constructor
    · exact Or.inl
    · rintro (h1 | rfl)
      · exact h1
      · exact h
  · simp

/-- Membership in a JS set built by folding insertions. -/
theorem mem_foldl_jsSetInsert (l init : List String) (a : String) :
    a ∈ l.foldl jsSetInsert init ↔ a ∈ init ∨ a ∈ l := by
  induction l generalizing init with
  | nil => simp
  | cons x xs ih =>
    simp only [List.foldl_cons, ih, mem_jsSetInsert, List.mem_cons]
    tauto

/-- Inserting into a duplicate-free JS set keeps it duplicate-free. -/
theorem nodup_jsSetInsert (l : List String) (x : String) (h : l.Nodup) :
    (jsSetInsert l x).Nodup := by
  unfold jsSetInsert
  split
  · exact h
  · rename_i hc
    simp only [List.elem_iff] at hc
    simp [List.nodup_append, h, hc]

/-- Folding insertions into a duplicate-free JS set keeps it
duplicate-free. -/
theorem nodup_foldl_jsSetInsert (l init : List String) (h : init.Nodup) :
    (l.foldl jsSetInsert init).Nodup := by
  induction l generalizing init with
  | nil => exact h
  | cons x xs ih => exact ih _ (nodup_jsSetInsert _ _ h)

/-- C4: for a reply-all on a resolved target, the derived recipient list
is exactly the deduplicated set `{target.from} ∪ target.to` minus the
replier (order-independent membership), and when that set is empty the
handler fails with a validation error and stores no message. -/
theorem replyAll_recipients_spec (st : DB) (gid? : Option String) (tid : String)
    (rid? : Option String) (fromAgent body : String) (th : ThreadRow) (target : MessageRow)
    (hf : fromAgent ≠ "") (htid : tid ≠ "") (hb : body ≠ "")
    (hth : dbGetThread st tid = some th)
    (hgm : (truthy? gid? && !(decide (gid?.getD "" = th.groupId))) = false)
    (hsender : (ensureGroup st th.groupId).1.agents.contains fromAgent = true)
    (htgt : resolveReplyTarget (ensureGroup st th.groupId).2 tid rid? = some target) :
    (∀ a, a ∈ replyAllRecipients target.fromAgent target.toAgents fromAgent ↔
      ((a = target.fromAgent ∨ a ∈ target.toAgents) ∧ a ≠ fromAgent)) ∧
    (replyAllRecipients target.fromAgent target.toAgents fromAgent).Nodup ∧
    (replyAllRecipients target.fromAgent target.toAgents fromAgent = [] →
      replyAllEmail st gid? tid rid? fromAgent body =
        ((ensureGroup st th.groupId).2, .noValidRecipients) ∧
      ((replyAllEmail st gid? tid rid? fromAgent body).1).messages = st.messages) := by
  have hred := replyAllEmail_reduce st gid? tid rid? fromAgent body th hf htid hb hth hgm hsender
  rw [htgt] at hred
  dsimp only at hred
  refine ⟨?_, ?_, ?_⟩
  · intro a
    unfold replyAllRecipients
    simp only [List.mem_filter, mem_foldl_jsSetInsert, mem_jsSetInsert, List.not_mem_nil,
      false_or, decide_eq_true_eq]
  · exact List.Nodup.filter _
      (nodup_foldl_jsSetInsert _ _ (nodup_jsSetInsert [] _ List.nodup_nil))
  · intro he
    rw [he] at hred
    rw [if_pos rfl] at hred
    refine ⟨hred, ?_⟩
    rw [hred]
    exact ensureGroup_messages st th.groupId

/-- Witness for C4: bob replying-all to alice's message to him in
`sampleDB1` derives the recipient set containing alice. -/
theorem replyAll_recipients_spec_witness :
    "alice" ∈ replyAllRecipients "alice" ["bob"] "bob" ↔
      (("alice" = "alice" ∨ "alice" ∈ (["bob"] : List String)) ∧ "alice" ≠ "bob") :=
  (replyAll_recipients_spec sampleDB1 none "T1" none "bob" "hi"
    ⟨"T1", "@g", "Hi", "alice", "0"⟩ ⟨"0", "T1", "@g", "alice", ["bob"], "Hi", "hello"⟩
    (by decide) (by decide) (by decide) (by decide) (by decide) (by decide) (by decide)).1 "alice"

/-- C8: target resolution for replies. A truthy `replyToMessageId`
resolves via the composite key `(threadId, replyToMessageId)`; an omitted
one resolves to the last message of the thread in creation order; a
failed resolution (absent key, or a thread with no messages) makes the
handler fail with the not-found error. -/
theorem resolveReplyTarget_spec (st : DB) (gid? : Option String) (tid : String)
    (rid? : Option String) (fromAgent body : String) (th : ThreadRow)
    (hf : fromAgent ≠ "") (htid : tid ≠ "") (hb : body ≠ "")
    (hth : dbGetThread st tid = some th)
    (hgm : (truthy? gid? && !(decide (gid?.getD "" = th.groupId))) = false)
    (hsender : (ensureGroup st th.groupId).1.agents.contains fromAgent = true) :
    (truthy? rid? = true →
      resolveReplyTarget (ensureGroup st th.groupId).2 tid rid? =
        dbGetMessage st tid (rid?.getD "")) ∧
    (truthy? rid? = false →
      resolveReplyTarget (ensureGroup st th.groupId).2 tid rid? =
        (listMessagesByThread st tid).getLast?) ∧
    (resolveReplyTarget (ensureGroup st th.groupId).2 tid rid? = none →
      replyEmail st gid? tid rid? fromAgent body =
        ((ensureGroup st th.groupId).2, .targetNotFound)) ∧
    (truthy? rid? = false → listMessagesByThread st tid = [] →
      replyEmail st gid? tid rid? fromAgent body =
        ((ensureGroup st th.groupId).2, .targetNotFound)) := by
  have hmsg := ensureGroup_messages st th.groupId
  have hred := replyEmail_reduce st gid? tid rid? fromAgent body th hf htid hb hth hgm hsender
  have hnone : resolveReplyTarget (ensureGroup st th.groupId).2 tid rid? = none →
      replyEmail st gid? tid rid? fromAgent body =
        ((ensureGroup st th.groupId).2, .targetNotFound) := by
    intro h
    rw [h] at hred
    exact hred
  refine ⟨?_, ?_, hnone, ?_⟩
  · intro h
    unfold resolveReplyTarget
    rw [if_pos h]
    exact dbGetMessage_congr st _ hmsg tid (rid?.getD "")
  · intro h
    unfold resolveReplyTarget
    rw [if_neg (by simp [h])]
    rw [listMessagesByThread_congr st _ hmsg tid]
  · intro h1 h2
    apply hnone
    unfold resolveReplyTarget
    rw [if_neg (by simp [h1])]
    rw [listMessagesByThread_congr st _ hmsg tid, h2]
    rfl

/-- A database with one group and one thread holding no messages, used
to exercise the defensive empty-thread branch of target resolution. -/
def emptyThreadDB : DB :=
  { groups := [sampleGroup],
    threads := [{ threadId := "T0", groupId := "@g", subject := "s",
                  createdBy := "alice", lastIndex := "0" }],
    messages := [] }

/-- Witness for C8: a reply into the message-less thread of
`emptyThreadDB` fails with the not-found error, and a reply with a given
message id resolves through the composite key in `sampleDB1`. -/
theorem resolveReplyTarget_spec_witness :
    (replyEmail emptyThreadDB none "T0" none "alice" "x" =
      ((ensureGroup emptyThreadDB "@g").2, .targetNotFound)) ∧
    (resolveReplyTarget (ensureGroup sampleDB1 "@g").2 "T1" (some "0") =
      dbGetMessage sampleDB1 "T1" (Option.getD (some "0") "")) :=
  ⟨(resolveReplyTarget_spec emptyThreadDB none "T0" none "alice" "x"
      ⟨"T0", "@g", "s", "alice", "0"⟩
      (by decide) (by decide) (by decide) (by decide) (by decide) (by decide)).2.2.2
      (by decide) (by decide),
   (resolveReplyTarget_spec sampleDB1 none "T1" (some "0") "bob" "y"
      ⟨"T1", "@g", "Hi", "alice", "0"⟩
      (by decide) (by decide) (by decide) (by decide) (by decide) (by decide)).1
      (by decide)⟩

/-- The state after `ensureGroup`: threads and messages untouched,
groups unchanged or extended by one empty-roster group. -/
theorem state_after_ensure (st : DB) (gid : String) :
    ((ensureGroup st gid).2).threads = st.threads ∧
    ((ensureGroup st gid).2).messages = st.messages ∧
    (((ensureGroup st gid).2).groups = st.groups ∨
      ∃ g2, ((ensureGroup st gid).2).groups = st.groups ++ [{ id := g2, agents := [] }]) := by
  refine ⟨ensureGroup_threads st gid, ensureGroup_messages st gid, ?_⟩
  rcases ensureGroup_groups st gid with hg | hg
  · exact Or.inl hg
  · exact Or.inr ⟨gid, hg⟩

/-- The responses the spec's error taxonomy classifies as
`ValidationError`: missing/empty required field, empty recipient list,
invalid sender or recipient membership, empty derived recipient set. -/
def isValidationResp : Resp → Bool
  | .missingFields => true
  | .emptyRecipients => true
  | .invalidSender _ => true
  | .invalidRecipients _ => true
  | .noValidRecipients => true
  | _ => false

/-- Counterexample to C3: on an empty database, a write naming a
nonexistent group with an unknown sender fails with a membership
validation error, yet commits the auto-created group (`ensureGroup` runs
before sender validation in the handler). -/
theorem validation_side_effects_counterexample :
    isValidationResp (writeEmail emptyDB "g" "a" (.arr ["b"]) "x" none "t1").2 = true ∧
    (writeEmail emptyDB "g" "a" (.arr ["b"]) "x" none "t1").1.groups ≠ emptyDB.groups := by
  decide

/-- C3 (amended): an operation failing with a `ValidationError` commits
no thread or message changes; missing-field and empty-recipient-list
failures leave the whole state untouched; a membership or
no-valid-recipients failure may additionally have persisted one
auto-created group with an empty agent roster, and nothing else. -/
theorem validation_no_side_effects_amended :
    (∀ st groupId fromAgent toRaw body subject? freshTid st2 resp,
      writeEmail st groupId fromAgent toRaw body subject? freshTid = (st2, resp) →
      (isValidationResp resp = true →
        st2.threads = st.threads ∧ st2.messages = st.messages ∧
        (st2.groups = st.groups ∨
          ∃ gid, st2.groups = st.groups ++ [{ id := gid, agents := [] }])) ∧
      (resp = .missingFields ∨ resp = .emptyRecipients → st2 = st)) ∧
    (∀ st gid? tid rid? fromAgent body st2 resp,
      replyEmail st gid? tid rid? fromAgent body = (st2, resp) →
      (isValidationResp resp = true →
        st2.threads = st.threads ∧ st2.messages = st.messages ∧
        (st2.groups = st.groups ∨
          ∃ gid, st2.groups = st.groups ++ [{ id := gid, agents := [] }])) ∧
      (resp = .missingFields → st2 = st)) ∧
    (∀ st gid? tid rid? fromAgent body st2 resp,
      replyAllEmail st gid? tid rid? fromAgent body = (st2, resp) →
      (isValidationResp resp = true →
        st2.threads = st.threads ∧ st2.messages = st.messages ∧
        (st2.groups = st.groups ∨
          ∃ gid, st2.groups = st.groups ++ [{ id := gid, agents := [] }])) ∧
      (resp = .missingFields → st2 = st)) := by
  refine ⟨?_, ?_, ?_⟩
  · intro st groupId fromAgent toRaw body subject? freshTid st2 resp h
    simp only [writeEmail] at h
    split at h
    · simp only [Prod.mk.injEq] at h
      obtain ⟨h1, h2⟩ := h
      subst h1; subst h2
      exact ⟨fun _ => ⟨rfl, rfl, Or.inl rfl⟩, fun _ => rfl⟩
    · split at h
      · simp only [Prod.mk.injEq] at h
        obtain ⟨h1, h2⟩ := h
        subst h1; subst h2
        exact ⟨fun _ => ⟨rfl, rfl, Or.inl rfl⟩, fun _ => rfl⟩
      · split at h
        · simp only [Prod.mk.injEq] at h
          obtain ⟨h1, h2⟩ := h
          subst h1; subst h2
          exact ⟨fun _ => state_after_ensure st groupId,
            fun hc => by rcases hc with hc | hc <;> cases hc⟩
        · split at h
          · simp only [Prod.mk.injEq] at h
            obtain ⟨h1, h2⟩ := h
            subst h1; subst h2
            exact ⟨fun _ => state_after_ensure st groupId,
              fun hc => by rcases hc with hc | hc <;> cases hc⟩
          · split at h
            · simp only [Prod.mk.injEq] at h
              obtain ⟨h1, h2⟩ := h
              subst h1; subst h2
              exact ⟨fun hv => by simp [isValidationResp] at hv,
                fun hc => by rcases hc with hc | hc <;> cases hc⟩
            · simp only [Prod.mk.injEq] at h
              obtain ⟨h1, h2⟩ := h
              subst h1; subst h2
              exact ⟨fun hv => by simp [isValidationResp] at hv,
                fun hc => by rcases hc with hc | hc <;> cases hc⟩
  · intro st gid? tid rid? fromAgent body st2 resp h
    simp only [replyEmail] at h
    split at h
    · simp only [Prod.mk.injEq] at h
      obtain ⟨h1, h2⟩ := h
      subst h1; subst h2
      exact ⟨fun _ => ⟨rfl, rfl, Or.inl rfl⟩, fun _ => rfl⟩
    · split at h
      · simp only [Prod.mk.injEq] at h
        obtain ⟨h1, h2⟩ := h
        subst h1; subst h2
        exact ⟨fun hv => by simp [isValidationResp] at hv, fun hc => by cases hc⟩
      · split at h
        · simp only [Prod.mk.injEq] at h
          obtain ⟨h1, h2⟩ := h
          subst h1; subst h2
          exact ⟨fun hv => by simp [isValidationResp] at hv, fun hc => by cases hc⟩
        · split at h
          · simp only [Prod.mk.injEq] at h
            obtain ⟨h1, h2⟩ := h
            subst h1; subst h2
            exact ⟨fun _ => state_after_ensure st _, fun hc => by cases hc⟩
          · split at h
            · simp only [Prod.mk.injEq] at h
              obtain ⟨h1, h2⟩ := h
              subst h1; subst h2
              exact ⟨fun hv => by simp [isValidationResp] at hv, fun hc => by cases hc⟩
            · split at h
              · simp only [Prod.mk.injEq] at h
                obtain ⟨h1, h2⟩ := h
                subst h1; subst h2
                exact ⟨fun _ => state_after_ensure st _, fun hc => by cases hc⟩
              · simp only [Prod.mk.injEq] at h
                obtain ⟨h1, h2⟩ := h
                subst h1; subst h2
                exact ⟨fun hv => by simp [isValidationResp] at hv, fun hc => by cases hc⟩
  · intro st gid? tid rid? fromAgent body st2 resp h
    simp only [replyAllEmail] at h
    split at h
    · simp only [Prod.mk.injEq] at h
      obtain ⟨h1, h2⟩ := h
      subst h1; subst h2
      exact ⟨fun _ => ⟨rfl, rfl, Or.inl rfl⟩, fun _ => rfl⟩
    · split at h
      · simp only [Prod.mk.injEq] at h
        obtain ⟨h1, h2⟩ := h
        subst h1; subst h2
        exact ⟨fun hv => by simp [isValidationResp] at hv, fun hc => by cases hc⟩
      · split at h
        · simp only [Prod.mk.injEq] at h
          obtain ⟨h1, h2⟩ := h
          subst h1; subst h2
          exact ⟨fun hv => by simp [isValidationResp] at hv, fun hc => by cases hc⟩
        · split at h
          · simp only [Prod.mk.injEq] at h
            obtain ⟨h1, h2⟩ := h
            subst h1; subst h2
            exact ⟨fun _ => state_after_ensure st _, fun hc => by cases hc⟩
          · split at h
            · simp only [Prod.mk.injEq] at h
              obtain ⟨h1, h2⟩ := h
              subst h1; subst h2
              exact ⟨fun hv => by simp [isValidationResp] at hv, fun hc => by cases hc⟩
            · split at h
              · simp only [Prod.mk.injEq] at h
                obtain ⟨h1, h2⟩ := h
                subst h1; subst h2
                exact ⟨fun _ => state_after_ensure st _, fun hc => by cases hc⟩
              · simp only [Prod.mk.injEq] at h
                obtain ⟨h1, h2⟩ := h
                subst h1; subst h2
                exact ⟨fun hv => by simp [isValidationResp] at hv, fun hc => by cases hc⟩

/-- Witness for C3 (amended): a write with a missing body on `sampleDB0`
fails the field validation and leaves the state untouched. -/
theorem validation_no_side_effects_amended_witness :
    (writeEmail sampleDB0 "@g" "alice" (.arr ["bob"]) "" none "T9").1 = sampleDB0 :=
  (validation_no_side_effects_amended.1 sampleDB0 "@g" "alice" (.arr ["bob"]) "" none "T9"
    (writeEmail sampleDB0 "@g" "alice" (.arr ["bob"]) "" none "T9").1 .missingFields
    (by decide)).2 (Or.inl rfl)

/-- The first element surviving `dropWhile` fails the predicate. -/
theorem dropWhile_head_false (p : Char → Bool) :
    ∀ (l : List Char) (c : Char), (l.dropWhile p).head? = some c → p c = false := by
  intro l
  induction l with
  | nil => intro c h; simp at h
  | cons x xs ih =>
    intro c h
    rw [List.dropWhile_cons] at h
    by_cases hx : p x
    · rw [if_pos hx] at h
      exact ih c h
    · rw [if_neg hx] at h
      simp only [List.head?_cons, Option.some.injEq] at h
      rw [← h]
      exact Bool.of_not_eq_true hx

/-- `dropWhile` is the identity when the head already fails the
predicate. -/
theorem dropWhile_eq_self_of_head (p : Char → Bool) (l : List Char)
    (h : ∀ c ∈ l.head?, p c = false) : l.dropWhile p = l := by
  cases l with
  | nil => rfl
  | cons x xs =>
    rw [List.dropWhile_cons]
    have hx := h x rfl
    simp [hx]

/-- A list whose first and last elements are not whitespace is a fixed
point of trimming. -/
theorem jsTrimList_fix (l : List Char)
    (hh : ∀ c ∈ l.head?, isJsWs c = false)
    (hl : ∀ c ∈ l.getLast?, isJsWs c = false) : jsTrimList l = l := by
  unfold jsTrimList
  rw [dropWhile_eq_self_of_head isJsWs l hh]
  rw [dropWhile_eq_self_of_head isJsWs l.reverse
    (by rw [List.head?_reverse]; exact hl)]
  exact List.reverse_reverse l

/-- The first character of a trimmed list is not whitespace. -/
theorem jsTrimList_head (l : List Char) :
    ∀ c ∈ (jsTrimList l).head?, isJsWs c = false := by
  intro c hc
  unfold jsTrimList at hc
  rw [List.head?_reverse] at hc
  obtain ⟨pre, hpre⟩ := List.dropWhile_suffix (l := (l.dropWhile isJsWs).reverse) isJsWs
  cases hB : (l.dropWhile isJsWs).reverse.dropWhile isJsWs with
  | nil => rw [hB] at hc; simp at hc
  | cons b bs =>
    rw [hB] at hc hpre
    have h2 : (b :: bs).getLast? = (l.dropWhile isJsWs).head? := by
      rw [← List.getLast?_append_of_ne_nil pre (List.cons_ne_nil b bs), hpre,
        List.getLast?_reverse]
    rw [Option.mem_def, h2] at hc
    exact dropWhile_head_false isJsWs l c hc

/-- The last character of a trimmed list is not whitespace. -/
theorem jsTrimList_last (l : List Char) :
    ∀ c ∈ (jsTrimList l).getLast?, isJsWs c = false := by
  intro c hc
  unfold jsTrimList at hc
  rw [List.getLast?_reverse] at hc
  exact dropWhile_head_false isJsWs _ c hc

/-- Trimming is idempotent. -/
theorem jsTrim_idem (s : String) : jsTrim (jsTrim s) = jsTrim s := by
  show String.mk (jsTrimList (jsTrimList s.data)) = String.mk (jsTrimList s.data)
  rw [jsTrimList_fix (jsTrimList s.data) (jsTrimList_head s.data) (jsTrimList_last s.data)]

/-- Character-level form of prefixing a subject with `"Re: "`. -/
theorem data_reApp (u : String) :
    ("Re: " ++ u).data = 'R' :: 'e' :: ':' :: ' ' :: u.data := rfl

/-- A `"Re: "`-prefixed subject always passes the `^re:/i` test. -/
theorem reiTest_reApp (u : String) : reiTest ("Re: " ++ u) = true := by
  unfold reiTest
  rw [data_reApp]
  rfl

/-- A `"Re: "`-prefixed subject is never the empty string. -/
theorem reApp_ne_empty (u : String) : ("Re: " ++ u) ≠ "" := by
  intro h
  have hd : ("Re: " ++ u).data = [] := by rw [h]
  rw [data_reApp] at hd
  cases hd

/-- Prefixing an already-trimmed nonempty subject with `"Re: "` yields a
fixed point of trimming. -/
theorem jsTrim_reApp (u : String) (hu : u ≠ "")
    (hlast : ∀ c ∈ u.data.getLast?, isJsWs c = false) :
    jsTrim ("Re: " ++ u) = "Re: " ++ u := by
  have hdata : u.data ≠ [] := by
    intro h
    apply hu
    have hmk : u = String.mk u.data := rfl
    rw [hmk, h]
  have hh : ∀ c ∈ ('R' :: 'e' :: ':' :: ' ' :: u.data).head?, isJsWs c = false := by
    intro c hc
    simp only [List.head?_cons, Option.mem_def, Option.some.injEq] at hc
    rw [← hc]
    decide
  have hl : ∀ c ∈ ('R' :: 'e' :: ':' :: ' ' :: u.data).getLast?, isJsWs c = false := by
    intro c hc
    have he : ('R' :: 'e' :: ':' :: ' ' :: u.data) = ['R', 'e', ':', ' '] ++ u.data := rfl
    rw [he, List.getLast?_append_of_ne_nil _ hdata] at hc
    exact hlast c hc
  show String.mk (jsTrimList ('R' :: 'e' :: ':' :: ' ' :: u.data)) = "Re: " ++ u
  rw [jsTrimList_fix _ hh hl]
  rfl

/-- A string passing the `^re:/i` test is nonempty. -/
theorem reiTest_ne_empty (r : String) (h : reiTest r = true) : r ≠ "" := by
  intro he
  rw [he] at h
  cases h

/-- C10: the reply-subject computation is idempotent: applying
`replySubject` to its own output returns that output unchanged. -/
theorem replySubject_idempotent (s : String) :
    replySubject (replySubject s) = replySubject s := by
  by_cases h0 : jsTrim s = ""
  · have h1 : replySubject s = "Re: " ++ DEFAULT_SUBJECT := by
      simp [replySubject, h0]
    rw [h1]
    decide
  · have hs : s ≠ "" := fun e => h0 (by rw [e]; rfl)
    by_cases h2 : reiTest (jsTrim s) = true
    · have h1 : replySubject s = jsTrim s := by
        simp [replySubject, hs, h0, h2]
      rw [h1]
      have hfix := jsTrim_idem s
      have hne : jsTrim s ≠ "" := h0
      have hne2 : reiTest (jsTrim (jsTrim s)) = true := by rw [hfix]; exact h2
      simp [replySubject, hne, hfix, h2, hne2]
    · have h2f : reiTest (jsTrim s) = false := by
        revert h2
        cases reiTest (jsTrim s) <;> simp
      have h1 : replySubject s = "Re: " ++ jsTrim s := by
        simp [replySubject, hs, h0, h2f]
      rw [h1]
      have hlast : ∀ c ∈ (jsTrim s).data.getLast?, isJsWs c = false := jsTrimList_last s.data
      have htrim : jsTrim ("Re: " ++ jsTrim s) = "Re: " ++ jsTrim s :=
        jsTrim_reApp (jsTrim s) h0 hlast
      have hrei : reiTest ("Re: " ++ jsTrim s) = true := reiTest_reApp (jsTrim s)
      have hne2 : ("Re: " ++ jsTrim s) ≠ "" := reApp_ne_empty (jsTrim s)
      have hrei2 : reiTest (jsTrim ("Re: " ++ jsTrim s)) = true := by rw [htrim]; exact hrei
      simp [replySubject, hne2, htrim, hrei2]
      intro hcontra
      rw [hrei] at hcontra
      cases hcontra

/-- The SQLite `UNIQUE(thread_id, message_id)` constraint on the
`messages` table, as a predicate on a database state. -/
def msgKeysNodup (st : DB) : Prop :=
  (st.messages.map (fun m => (m.threadId, m.messageid))).Nodup

/-- Under unique composite keys, `find?` on the key of a stored row
returns that row. -/
theorem find?_key_unique (l : List MessageRow)
    (h : (l.map (fun m => (m.threadId, m.messageid))).Nodup)
    (r : MessageRow) (hr : r ∈ l) :
    l.find? (fun m => m.threadId = r.threadId && m.messageid = r.messageid) = some r := by
  induction l with
  | nil => cases hr
  | cons x xs ih =>
    rcases List.mem_cons.mp hr with rfl | hr2
    · exact List.find?_cons_of_pos xs (by simp)
    · have hkey : (x.threadId, x.messageid) ≠ (r.threadId, r.messageid) := by
        intro he
        apply (List.nodup_cons.mp h).1
        show (x.threadId, x.messageid) ∈ _
        rw [he]
        exact List.mem_map_of_mem _ hr2
      have hpx : ¬((decide (x.threadId = r.threadId) && decide (x.messageid = r.messageid)) = true) := by
        intro he
        simp only [Bool.and_eq_true, decide_eq_true_eq] at he
        exact hkey (by rw [he.1, he.2])
      rw [List.find?_cons_of_neg xs hpx]
      exact ih (List.nodup_cons.mp h).2 hr2

/-- Under unique composite keys, refetching a stored row through
`getMessage` returns that row. -/
theorem dbGetMessage_of_mem (st : DB) (hkeys : msgKeysNodup st)
    (r : MessageRow) (hr : r ∈ st.messages) :
    dbGetMessage st r.threadId r.messageid = some r :=
  find?_key_unique st.messages hkeys r hr

/-- A `filterMap` whose function is the identity on every element of the
list is the identity. -/
theorem filterMap_id_of_some (l : List MessageRow) (f : MessageRow → Option MessageRow)
    (h : ∀ r ∈ l, f r = some r) : l.filterMap f = l := by
  induction l with
  | nil => rfl
  | cons x xs ih =>
    rw [List.filterMap_cons, h x (List.mem_cons_self x xs)]
    rw [ih (fun r hr => h r (List.mem_cons_of_mem x hr))]

/-- Under unique composite keys, `findMessagesById` returns exactly the
matching rows in reverse insertion order. -/
theorem findMessagesById_eq (st : DB) (mid : String) (gid? : Option String)
    (hkeys : msgKeysNodup st) :
    findMessagesById st mid gid? = (st.messages.filter (matchesMsgId mid gid?)).reverse := by
  unfold findMessagesById
  apply filterMap_id_of_some
  intro r hr
  have hr2 : r ∈ st.messages :=
    List.mem_of_mem_filter (List.mem_reverse.mp hr)
  exact dbGetMessage_of_mem st hkeys r hr2

/-- C6: `findMessage` without `threadId`: zero matching stored messages
yield the not-found error, exactly one match returns that message, and
more than one match is rejected with a disambiguation error listing the
thread id and group id of every match. -/
theorem findMessage_disambiguation (st : DB) (mid : String) (gid? : Option String)
    (hkeys : msgKeysNodup st)
    (hg : truthy? gid? = false ∨ (dbGetGroup st (gid?.getD "")).isSome = true) :
    (st.messages.filter (matchesMsgId mid gid?) = [] →
      getMessageHandler st mid none gid? = .messageNotFound mid) ∧
    (∀ m, st.messages.filter (matchesMsgId mid gid?) = [m] →
      getMessageHandler st mid none gid? = .foundMessage m) ∧
    (2 ≤ (st.messages.filter (matchesMsgId mid gid?)).length →
      ∃ L, getMessageHandler st mid none gid? = .multipleMatches L ∧
        ∀ p, p ∈ L ↔ ∃ m ∈ st.messages.filter (matchesMsgId mid gid?),
          p = (m.threadId, m.groupId)) := by
  have hcond : (truthy? gid? && (dbGetGroup st (gid?.getD "")).isNone) = false := by
    rcases hg with h | h
    · simp [h]
    · cases hopt : dbGetGroup st (gid?.getD "")
      · rw [hopt] at h
        cases h
      · simp
  unfold getMessageHandler
  rw [if_neg (by rw [hcond]; exact Bool.false_ne_true)]
  rw [if_neg (by decide : ¬(truthy? (none : Option String) = true))]
  rw [findMessagesById_eq st mid gid? hkeys]
  refine ⟨?_, ?_, ?_⟩
  · intro he
    rw [he]
    rfl
  · intro m he
    rw [he]
    rfl
  · intro hlen
    cases hR : (st.messages.filter (matchesMsgId mid gid?)).reverse with
    | nil =>
      rw [List.reverse_eq_nil_iff] at hR
      rw [hR] at hlen
      simp at hlen
    | cons a tail =>
      cases tail with
      | nil =>
        have hlen1 := congrArg List.length hR
        rw [List.length_reverse] at hlen1
        simp at hlen1
        omega
      | cons b rest =>
        refine ⟨(a :: b :: rest).map (fun m => (m.threadId, m.groupId)), rfl, ?_⟩
        intro p
        have hsets : ∀ m : MessageRow,
            m ∈ a :: b :: rest ↔ m ∈ st.messages.filter (matchesMsgId mid gid?) := by
          intro m
          rw [← hR, List.mem_reverse]
        simp only [List.mem_map]
        constructor
        · rintro ⟨m, hm, rfl⟩
          exact ⟨m, (hsets m).mp hm, rfl⟩
        · rintro ⟨m, hm, rfl⟩
          exact ⟨m, (hsets m).mpr hm, rfl⟩

/-- Two threads each holding a message `"0"`, the spec's disambiguation
scenario. -/
def twoThreadDB : DB :=
  { groups := [sampleGroup],
    threads := [{ threadId := "T1", groupId := "@g", subject := "A",
                  createdBy := "alice", lastIndex := "0" },
                { threadId := "T2", groupId := "@g", subject := "B",
                  createdBy := "bob", lastIndex := "0" }],
    messages := [{ messageid := "0", threadId := "T1", groupId := "@g",
                   fromAgent := "alice", toAgents := ["bob"], subject := "A", body := "x" },
                 { messageid := "0", threadId := "T2", groupId := "@g",
                   fromAgent := "bob", toAgents := ["alice"], subject := "B", body := "y" }] }

/-- Witness for C6: looking up `"0"` in `twoThreadDB` without a thread id
is rejected with a disambiguation error listing both locations. -/
theorem findMessage_disambiguation_witness :
    ∃ L, getMessageHandler twoThreadDB "0" none none = .multipleMatches L ∧
      ∀ p, p ∈ L ↔ ∃ m ∈ twoThreadDB.messages.filter (matchesMsgId "0" none),
        p = (m.threadId, m.groupId) :=
  (findMessage_disambiguation twoThreadDB "0" none
    (by unfold msgKeysNodup; decide) (Or.inl rfl)).2.2 (by decide)

/-- Code point of the digit character produced for a digit value. -/
theorem toNat_digitChar (d : Nat) (h : d < 10) : (Char.ofNat (48 + d)).toNat = 48 + d := by
  unfold Char.ofNat
  rw [dif_pos (by unfold Nat.isValidChar; left; omega)]
  rfl

/-- The characters produced by the fuelled digit printer are digits. -/
theorem natDigitsAux_digits (fuel : Nat) :
    ∀ n, n < fuel → ∀ c ∈ natDigitsAux fuel n, isDigitChar c = true := by
  induction fuel with
  | zero => intro n hn; omega
  | succ fuel ih =>
    intro n hn c hc
    unfold natDigitsAux at hc
    by_cases h10 : n < 10
    · rw [if_pos h10] at hc
      simp only [List.mem_singleton] at hc
      subst hc
      simp only [isDigitChar, Bool.and_eq_true, decide_eq_true_eq]
      rw [toNat_digitChar n h10]
      omega
    · rw [if_neg h10] at hc
      rcases List.mem_append.mp hc with hc1 | hc2
      · exact ih (n / 10) (by omega) c hc1
      · simp only [List.mem_singleton] at hc2
        subst hc2
        simp only [isDigitChar, Bool.and_eq_true, decide_eq_true_eq]
        rw [toNat_digitChar (n % 10) (Nat.mod_lt n (by omega))]
        omega

/-- The fuelled digit printer never returns the empty list. -/
theorem natDigitsAux_ne_nil (fuel n : Nat) (hn : n < fuel) :
    natDigitsAux fuel n ≠ [] := by
  cases fuel with
  | zero => omega
  | succ fuel =>
    unfold natDigitsAux
    by_cases h10 : n < 10
    · rw [if_pos h10]
      exact List.cons_ne_nil _ _
    · rw [if_neg h10]
      simp

/-- Appending one digit multiplies the accumulated value by ten. -/
theorem digitsVal_append (l : List Char) (c : Char) :
    digitsVal (l ++ [c]) = digitsVal l * 10 + (c.toNat - 48) := by
  unfold digitsVal
  rw [List.foldl_append]
  rfl

/-- The fuelled digit printer round-trips through the decimal value. -/
theorem digitsVal_natDigitsAux (fuel : Nat) :
    ∀ n, n < fuel → digitsVal (natDigitsAux fuel n) = n := by
  induction fuel with
  | zero => intro n hn; omega
  | succ fuel ih =>
    intro n hn
    unfold natDigitsAux
    by_cases h10 : n < 10
    · rw [if_pos h10]
      show 0 * 10 + ((Char.ofNat (48 + n)).toNat - 48) = n
      rw [toNat_digitChar n h10]
      omega
    · rw [if_neg h10]
      rw [digitsVal_append]
      rw [ih (n / 10) (by omega)]
      rw [toNat_digitChar (n % 10) (Nat.mod_lt n (by omega))]
      omega

/-- The decimal printer produces only digit characters. -/
theorem natDigits_digits (n : Nat) : ∀ c ∈ natDigits n, isDigitChar c = true :=
  natDigitsAux_digits (n + 1) n (Nat.lt_succ_self n)

/-- The decimal printer never produces the empty list. -/
theorem natDigits_ne_nil (n : Nat) : natDigits n ≠ [] :=
  natDigitsAux_ne_nil (n + 1) n (Nat.lt_succ_self n)

/-- The decimal printer round-trips through the decimal value. -/
theorem digitsVal_natDigits (n : Nat) : digitsVal (natDigits n) = n :=
  digitsVal_natDigitsAux (n + 1) n (Nat.lt_succ_self n)

/-- Digit characters are not JS whitespace. -/
theorem digit_not_ws (c : Char) (h : isDigitChar c = true) : isJsWs c = false := by
  simp only [isDigitChar, Bool.and_eq_true, decide_eq_true_eq] at h
  unfold isJsWs
  simp only [Bool.or_eq_false_iff, decide_eq_false_iff_not]
  refine ⟨⟨⟨⟨⟨?_, ?_⟩, ?_⟩, ?_⟩, ?_⟩, ?_⟩ <;>
    · rintro rfl
      exact absurd h (by decide)

/-- A digit-headed character list has no sign prefix. -/
theorem jsSignSplit_digit (c : Char) (t : List Char) (hc : isDigitChar c = true) :
    jsSignSplit (c :: t) = ((1 : Int), c :: t) := by
  unfold jsSignSplit
  split
  · rename_i heq
    injection heq with h1 h2
    subst h1
    exact absurd hc (by decide)
  · rename_i heq
    injection heq with h1 h2
    subst h1
    exact absurd hc (by decide)
  · rfl

/-- `parseInt` of a string made of digit characters returns its decimal
value. -/
theorem jsParseInt_mk_digits (l : List Char) (hne : l ≠ [])
    (hdig : ∀ c ∈ l, isDigitChar c = true) :
    jsParseInt (String.mk l) = some ((digitsVal l : Nat) : Int) := by
  cases l with
  | nil => exact absurd rfl hne
  | cons c t =>
    have hc : isDigitChar c = true := hdig c (List.mem_cons_self c t)
    have hws : isJsWs c = false := digit_not_ws c hc
    have hdata : (String.mk (c :: t)).data = c :: t := rfl
    unfold jsParseInt
    rw [hdata]
    rw [dropWhile_eq_self_of_head isJsWs (c :: t) (by
      intro d hd
      simp only [List.head?_cons, Option.mem_def, Option.some.injEq] at hd
      rw [← hd]
      exact hws)]
    dsimp only
    rw [jsSignSplit_digit c t hc]
    rw [List.takeWhile_eq_self_iff.mpr hdig]
    rw [if_neg (List.cons_ne_nil c t)]
    simp

/-- `Number.parseInt` inverts JS stringification of a natural number. -/
theorem jsParseInt_natToStr (n : Nat) : jsParseInt (natToStr n) = some ((n : Nat) : Int) := by
  have h := jsParseInt_mk_digits (natDigits n) (natDigits_ne_nil n) (natDigits_digits n)
  rw [digitsVal_natDigits] at h
  exact h

/-- JS stringification of a non-negative integer agrees with the natural
number printer. -/
theorem intToStr_ofNat (m : Nat) : intToStr (m : Int) = natToStr m := by
  unfold intToStr
  rw [if_neg (by omega)]
  rw [Int.toNat_ofNat]

/-- `nextMessageId` of a thread whose `lastIndex` is a canonical decimal
string is the canonical successor. -/
theorem nextMessageId_canonical (th : ThreadRow) (k : Nat) (h : th.lastIndex = natToStr k) :
    nextMessageId th = natToStr (k + 1) := by
  unfold nextMessageId
  rw [h, jsParseInt_natToStr]
  show intToStr ((k : Int) + 1) = natToStr (k + 1)
  rw [show ((k : Int) + 1) = ((k + 1 : Nat) : Int) by omega]
  exact intToStr_ofNat (k + 1)

/-- JS decimal stringification of naturals is injective. -/
theorem natToStr_injective : Function.Injective natToStr := by
  intro a b h
  have hd : natDigits a = natDigits b := congrArg String.data h
  have hv : digitsVal (natDigits a) = digitsVal (natDigits b) := by rw [hd]
  rwa [digitsVal_natDigits, digitsVal_natDigits] at hv

/-- The canonical id sequence `"0", "1", ..., toString (n-1)`. -/
def canonicalIds (n : Nat) : List String :=
  (List.range n).map natToStr

/-- The canonical id sequence has no repeats. -/
theorem canonicalIds_nodup (n : Nat) : (canonicalIds n).Nodup :=
  (List.nodup_range n).map natToStr_injective

/-- The canonical id sequence grows by its stringified length. -/
theorem canonicalIds_succ (n : Nat) :
    canonicalIds (n + 1) = canonicalIds n ++ [natToStr n] := by
  unfold canonicalIds
  rw [List.range_succ, List.map_append]
  rfl

/-- Length of the canonical id sequence. -/
theorem canonicalIds_length (n : Nat) : (canonicalIds n).length = n := by
  simp [canonicalIds]

/-- The stored rows of one thread, in insertion order. -/
def msgRows (st : DB) (tid : String) : List MessageRow :=
  st.messages.filter (fun m => m.threadId = tid)

/-- `listMessagesByThread` refetches each row of the thread. -/
theorem listMessagesByThread_eq_filterMap (st : DB) (tid : String) :
    listMessagesByThread st tid =
      (msgRows st tid).filterMap (fun r => dbGetMessage st tid r.messageid) := rfl

/-- A conjunctive `find?` over a list equals `find?` over the filtered
list. -/
theorem find?_and_filter (l : List MessageRow) (tid mid : String) :
    l.find? (fun m => m.threadId = tid && m.messageid = mid) =
      (l.filter (fun m => m.threadId = tid)).find? (fun m => m.messageid = mid) := by
  induction l with
  | nil => rfl
  | cons x xs ih =>
    by_cases h1 : x.threadId = tid
    · by_cases h2 : x.messageid = mid
      · rw [List.find?_cons_of_pos _ (by simp [h1, h2]),
          List.filter_cons_of_pos (by simp [h1]),
          List.find?_cons_of_pos _ (by simp [h2])]
      · rw [List.find?_cons_of_neg _ (by simp [h2]),
          List.filter_cons_of_pos (by simp [h1]),
          List.find?_cons_of_neg _ (by simp [h2]), ih]
    · rw [List.find?_cons_of_neg _ (by simp [h1]),
        List.filter_cons_of_neg (by simp [h1]), ih]

/-- `getMessage` is a `find?` over the composite key, hence a `find?` on
message ids within the thread's rows. -/
theorem dbGetMessage_eq_thread_find (st : DB) (tid mid : String) :
    dbGetMessage st tid mid = (msgRows st tid).find? (fun m => m.messageid = mid) :=
  find?_and_filter st.messages tid mid

/-- Under per-thread unique ids, `find?` on the id of a stored row
returns that row. -/
theorem find?_mid_unique (l : List MessageRow)
    (h : (l.map (fun m => m.messageid)).Nodup)
    (r : MessageRow) (hr : r ∈ l) :
    l.find? (fun m => m.messageid = r.messageid) = some r := by
  induction l with
  | nil => cases hr
  | cons x xs ih =>
    rcases List.mem_cons.mp hr with rfl | hr2
    · exact List.find?_cons_of_pos xs (by simp)
    · have hne : ¬(decide (x.messageid = r.messageid) = true) := by
        intro he
        simp only [decide_eq_true_eq] at he
        apply (List.nodup_cons.mp h).1
        show x.messageid ∈ _
        rw [he]
        exact List.mem_map_of_mem _ hr2
      rw [List.find?_cons_of_neg xs hne]
      exact ih (List.nodup_cons.mp h).2 hr2

/-- Under per-thread unique ids, `listMessagesByThread` returns exactly
the stored rows of the thread in insertion order. -/
theorem listMessagesByThread_eq_msgRows (st : DB) (tid : String)
    (h : ((msgRows st tid).map (fun m => m.messageid)).Nodup) :
    listMessagesByThread st tid = msgRows st tid := by
  rw [listMessagesByThread_eq_filterMap]
  apply filterMap_id_of_some
  intro r hr
  rw [dbGetMessage_eq_thread_find]
  exact find?_mid_unique (msgRows st tid) h r hr

/-- Per-thread invariant: the stored message ids are exactly
`"0","1",...` in creation order, and `lastIndex` is the last id
(sentinel `"0"` for an empty thread). -/
def threadOK (st : DB) (t : ThreadRow) : Prop :=
  (msgRows st t.threadId).map (fun m => m.messageid) =
    canonicalIds (msgRows st t.threadId).length ∧
  t.lastIndex = (if (msgRows st t.threadId).length = 0 then "0"
    else natToStr ((msgRows st t.threadId).length - 1))

/-- Global invariant: thread ids are unique (primary key), every message
references an existing thread (foreign key), and every thread satisfies
the per-thread id invariant. -/
def DBInv (st : DB) : Prop :=
  (st.threads.map (fun t => t.threadId)).Nodup ∧
  (∀ m ∈ st.messages, ∃ t ∈ st.threads, t.threadId = m.threadId) ∧
  (∀ t ∈ st.threads, threadOK st t)

/-- The invariant only depends on the threads and messages tables. -/
theorem inv_of_same_tables (st st2 : DB) (ht : st2.threads = st.threads)
    (hm : st2.messages = st.messages) (h : DBInv st) : DBInv st2 := by
  unfold DBInv threadOK msgRows at h ⊢
  rw [ht, hm]
  exact h

/-- The empty database satisfies the invariant. -/
theorem inv_emptyDB : DBInv emptyDB := by
  refine ⟨by simp [emptyDB], ?_, ?_⟩
  · intro m hm
    simp [emptyDB] at hm
  · intro t ht
    simp [emptyDB] at ht

/-- `msgRows` only reads the messages table. -/
theorem msgRows_congr (st st2 : DB) (h : st2.messages = st.messages) (tid : String) :
    msgRows st2 tid = msgRows st tid := by
  unfold msgRows
  rw [h]

/-- `msgRows` after appending one message row. -/
theorem msgRows_snoc (st : DB) (M : MessageRow) (st2 : DB)
    (h : st2.messages = st.messages ++ [M]) (tid : String) :
    msgRows st2 tid = msgRows st tid ++ (if M.threadId = tid then [M] else []) := by
  unfold msgRows
  rw [h, List.filter_append]
  congr 1
  by_cases hM : M.threadId = tid
  · simp [hM]
  · simp [hM]

/-- Creating a fresh thread with its first message `"0"` preserves the
invariant. -/
theorem inv_newThread (st : DB) (freshTid gid subj creator : String) (M : MessageRow)
    (hMtid : M.threadId = freshTid) (hMid : M.messageid = "0")
    (hfresh : dbGetThread st freshTid = none) (hinv : DBInv st) :
    DBInv (dbCreateMessage
      (dbCreateThread st
        { threadId := freshTid, groupId := gid, subject := subj,
          createdBy := creator, lastIndex := "0" }) M) := by
  obtain ⟨hnodup, hfk, hok⟩ := hinv
  have hfreshAll : ∀ t ∈ st.threads, t.threadId ≠ freshTid := by
    intro t ht
    have := List.find?_eq_none.mp hfresh t ht
    simpa using this
  have hmsgAll : ∀ m ∈ st.messages, m.threadId ≠ freshTid := by
    intro m hm he
    obtain ⟨t, ht, hte⟩ := hfk m hm
    exact hfreshAll t ht (by rw [hte, he])
  set T : ThreadRow :=
    { threadId := freshTid, groupId := gid, subject := subj,
      createdBy := creator, lastIndex := "0" } with hT
  have hmapold : ∀ t ∈ st.threads,
      (if t.threadId = M.threadId then { t with lastIndex := M.messageid } else t) = t := by
    intro t ht
    rw [if_neg (by rw [hMtid]; exact hfreshAll t ht)]
  have hmapT :
      (if T.threadId = M.threadId then { T with lastIndex := M.messageid } else T) = T := by
    rw [if_pos (by rw [hMtid]), hMid]
  have hthreads : (dbCreateMessage (dbCreateThread st T) M).threads = st.threads ++ [T] := by
    show (st.threads ++ [T]).map
      (fun t => if t.threadId = M.threadId then { t with lastIndex := M.messageid } else t) = _
    rw [List.map_append]
    congr 1
    · exact List.map_congr_left hmapold ▸ List.map_id st.threads
    · show [(if T.threadId = M.threadId then { T with lastIndex := M.messageid } else T)] = [T]
      rw [hmapT]
  have hmsgs : (dbCreateMessage (dbCreateThread st T) M).messages = st.messages ++ [M] := rfl
  have hrows : ∀ tid, msgRows (dbCreateMessage (dbCreateThread st T) M) tid =
      msgRows st tid ++ (if M.threadId = tid then [M] else []) :=
    fun tid => msgRows_snoc st M _ hmsgs tid
  refine ⟨?_, ?_, ?_⟩
  · rw [hthreads]
    simp only [List.map_append, List.map_cons, List.map_nil]
    rw [List.nodup_append]
    refine ⟨hnodup, List.nodup_singleton _, ?_⟩
    intro x hx hx2
    simp only [List.mem_singleton] at hx2
    subst hx2
    obtain ⟨t, ht, hte⟩ := List.mem_map.mp hx
    exact hfreshAll t ht hte
  · intro m hm
    rw [hmsgs] at hm
    rw [hthreads]
    rcases List.mem_append.mp hm with hm1 | hm2
    · obtain ⟨t, ht, hte⟩ := hfk m hm1
      exact ⟨t, List.mem_append_left _ ht, hte⟩
    · simp only [List.mem_singleton] at hm2
      subst hm2
      exact ⟨T, List.mem_append_right _ (List.mem_singleton_self T), by rw [hMtid]⟩
  · intro t2 ht2
    rw [hthreads] at ht2
    unfold threadOK
    rw [hrows t2.threadId]
    rcases List.mem_append.mp ht2 with ht2a | ht2b
    · rw [if_neg (by rw [hMtid]; exact fun he => hfreshAll t2 ht2a he.symm)]
      rw [List.append_nil]
      have hcur := hok t2 ht2a
      unfold threadOK at hcur
      exact hcur
    · simp only [List.mem_singleton] at ht2b
      subst ht2b
      have hfilterold : msgRows st T.threadId = [] := by
        unfold msgRows
        rw [List.filter_eq_nil_iff]
        intro m hm
        simp only [decide_eq_true_eq]
        exact hmsgAll m hm
      rw [hfilterold, if_pos (by rw [hMtid])]
      constructor
      · show [M.messageid] = canonicalIds 1
        rw [hMid]
        decide
      · show ("0" : String) = (if (1 : Nat) = 0 then "0" else natToStr (1 - 1))
        decide

/-- Appending the next message to an existing non-empty thread preserves
the invariant. -/
theorem inv_append (st : DB) (tid : String) (th : ThreadRow) (M : MessageRow)
    (hth : dbGetThread st tid = some th)
    (hMtid : M.threadId = tid)
    (hMid : M.messageid = nextMessageId th)
    (hne : msgRows st tid ≠ [])
    (hinv : DBInv st) : DBInv (dbCreateMessage st M) := by
  obtain ⟨hnodup, hfk, hok⟩ := hinv
  have hthmem : th ∈ st.threads := List.mem_of_find?_eq_some hth
  have hthtid : th.threadId = tid := by
    have := List.find?_some hth
    simpa using this
  have hcur := hok th hthmem
  unfold threadOK at hcur
  rw [hthtid] at hcur
  have hnl : (msgRows st tid).length ≠ 0 := by
    intro h0
    exact hne (List.length_eq_zero.mp h0)
  have hlast : th.lastIndex = natToStr ((msgRows st tid).length - 1) := by
    rw [hcur.2, if_neg hnl]
  have hnext : nextMessageId th = natToStr ((msgRows st tid).length) := by
    rw [nextMessageId_canonical th _ hlast]
    congr 1
    omega
  have hmsgs : (dbCreateMessage st M).messages = st.messages ++ [M] := rfl
  have hthreads : (dbCreateMessage st M).threads =
      st.threads.map
        (fun t => if t.threadId = M.threadId then { t with lastIndex := M.messageid } else t) :=
    rfl
  have hrows : ∀ tid2, msgRows (dbCreateMessage st M) tid2 =
      msgRows st tid2 ++ (if M.threadId = tid2 then [M] else []) :=
    fun tid2 => msgRows_snoc st M _ hmsgs tid2
  have hpreserve : ∀ t : ThreadRow,
      ((if t.threadId = M.threadId then { t with lastIndex := M.messageid } else t) :
        ThreadRow).threadId = t.threadId := by
    intro t
    split <;> rfl
  have hcomp : ((dbCreateMessage st M).threads).map (fun t => t.threadId) =
      st.threads.map (fun t => t.threadId) := by
    rw [hthreads, List.map_map]
    exact List.map_congr_left (fun t _ => hpreserve t)
  refine ⟨?_, ?_, ?_⟩
  · rw [hcomp]
    exact hnodup
  · intro m hm
    rw [hmsgs] at hm
    rw [hthreads]
    rcases List.mem_append.mp hm with hm1 | hm2
    · obtain ⟨t, ht, hte⟩ := hfk m hm1
      exact ⟨_, List.mem_map_of_mem _ ht, by rw [hpreserve t]; exact hte⟩
    · simp only [List.mem_singleton] at hm2
      subst hm2
      exact ⟨_, List.mem_map_of_mem _ hthmem, by rw [hpreserve th, hthtid, hMtid]⟩
  · intro t2 ht2
    rw [hthreads] at ht2
    obtain ⟨t, ht, hft⟩ := List.mem_map.mp ht2
    unfold threadOK
    by_cases hcase : t.threadId = tid
    · have hteq : t = th :=
        List.inj_on_of_nodup_map hnodup ht hthmem (by rw [hcase, hthtid])
      subst hteq
      have hfeq : t2 = { t with lastIndex := M.messageid } := by
        rw [← hft, if_pos (by rw [hMtid, hcase])]
      have ht2tid : t2.threadId = tid := by
        rw [hfeq]
        exact hcase
      rw [ht2tid, hrows tid, if_pos (by rw [hMtid])]
      constructor
      · rw [List.map_append, List.length_append]
        rw [hcur.1]
        simp only [List.map_cons, List.map_nil, List.length_cons, List.length_nil]
        rw [canonicalIds_succ]
        rw [hMid, hnext]
      · rw [hfeq]
        show M.messageid = _
        rw [List.length_append]
        simp only [List.length_cons, List.length_nil]
        rw [if_neg (by omega)]
        rw [hMid, hnext]
        congr 1
    · have hfeq : t2 = t := by
        rw [← hft, if_neg (by rw [hMtid]; exact hcase)]
      rw [hfeq]
      rw [hrows t.threadId, if_neg (by rw [hMtid]; exact fun he => hcase he.symm)]
      rw [List.append_nil]
      have hcur2 := hok t ht
      unfold threadOK at hcur2
      exact hcur2

/-- `getThread` only reads the threads table. -/
theorem dbGetThread_congr (st st2 : DB) (h : st2.threads = st.threads) (tid : String) :
    dbGetThread st2 tid = dbGetThread st tid := by
  unfold dbGetThread
  rw [h]

/-- A resolved reply target means the thread stores at least one
message. -/
theorem resolve_some_nonempty (st : DB) (tid : String) (rid? : Option String)
    (target : MessageRow) (h : resolveReplyTarget st tid rid? = some target) :
    msgRows st tid ≠ [] := by
  intro hempty
  unfold resolveReplyTarget at h
  by_cases ht : truthy? rid? = true
  · rw [if_pos ht] at h
    have hmem := List.mem_of_find?_eq_some h
    have hpred := List.find?_some h
    simp only [Bool.and_eq_true, decide_eq_true_eq] at hpred
    have htin : target ∈ msgRows st tid := by
      unfold msgRows
      rw [List.mem_filter]
      exact ⟨hmem, by simp [hpred.1]⟩
    rw [hempty] at htin
    cases htin
  · rw [if_neg ht] at h
    have hnil : listMessagesByThread st tid = [] := by
      rw [listMessagesByThread_eq_filterMap, hempty]
      rfl
    rw [hnil] at h
    cases h

/-- The write handler preserves the invariant (given a fresh thread
id). -/
theorem inv_writeEmail (st : DB) (groupId fromAgent : String) (toRaw : ToField) (body : String)
    (subject? : Option String) (freshTid : String)
    (hfresh : dbGetThread st freshTid = none) (hinv : DBInv st) :
    DBInv (writeEmail st groupId fromAgent toRaw body subject? freshTid).1 := by
  have hensure : DBInv (ensureGroup st groupId).2 :=
    inv_of_same_tables st _ (ensureGroup_threads st groupId) (ensureGroup_messages st groupId) hinv
  have hfresh2 : dbGetThread (ensureGroup st groupId).2 freshTid = none := by
    rw [dbGetThread_congr st _ (ensureGroup_threads st groupId)]
    exact hfresh
  simp only [writeEmail]
  split
  · exact hinv
  · split
    · exact hinv
    · split
      · exact hensure
      · split
        · exact hensure
        · split
          · exact hensure
          · rename_i th heq
            simp [mkMessage, truthy?] at heq
            subst heq
            exact inv_newThread (ensureGroup st groupId).2 freshTid groupId
              ((some (subject?.getD DEFAULT_SUBJECT)).getD "") fromAgent _ rfl rfl hfresh2 hensure

/-- The reply handler preserves the invariant. -/
theorem inv_replyEmail (st : DB) (gid? : Option String) (tid : String) (rid? : Option String)
    (fromAgent body : String) (hinv : DBInv st) :
    DBInv (replyEmail st gid? tid rid? fromAgent body).1 := by
  simp only [replyEmail]
  split
  · exact hinv
  · rename_i hfields
    split
    · exact hinv
    · rename_i thread heq
      have hensure : DBInv (ensureGroup st thread.groupId).2 :=
        inv_of_same_tables st _ (ensureGroup_threads st thread.groupId)
          (ensureGroup_messages st thread.groupId) hinv
      have hth2 : dbGetThread (ensureGroup st thread.groupId).2 tid = some thread := by
        rw [dbGetThread_congr st _ (ensureGroup_threads st thread.groupId)]
        exact heq
      have htidne : tid ≠ "" := by
        simp only [Bool.or_eq_true, decide_eq_true_eq, not_or] at hfields
        exact hfields.1.2
      split
      · exact hinv
      · split
        · exact hensure
        · split
          · exact hensure
          · rename_i target htgt
            split
            · exact hensure
            · have hrowsne : msgRows (ensureGroup st thread.groupId).2 tid ≠ [] :=
                resolve_some_nonempty _ tid rid? target htgt
              apply inv_append (ensureGroup st thread.groupId).2 tid thread _ hth2 ?_ ?_
                hrowsne hensure
              · simp [rowOf, mkMessage, truthy?, htidne]
              · rfl

/-- The reply-all handler preserves the invariant. -/
theorem inv_replyAllEmail (st : DB) (gid? : Option String) (tid : String) (rid? : Option String)
    (fromAgent body : String) (hinv : DBInv st) :
    DBInv (replyAllEmail st gid? tid rid? fromAgent body).1 := by
  simp only [replyAllEmail]
  split
  · exact hinv
  · rename_i hfields
    split
    · exact hinv
    · rename_i thread heq
      have hensure : DBInv (ensureGroup st thread.groupId).2 :=
        inv_of_same_tables st _ (ensureGroup_threads st thread.groupId)
          (ensureGroup_messages st thread.groupId) hinv
      have hth2 : dbGetThread (ensureGroup st thread.groupId).2 tid = some thread := by
        rw [dbGetThread_congr st _ (ensureGroup_threads st thread.groupId)]
        exact heq
      have htidne : tid ≠ "" := by
        simp only [Bool.or_eq_true, decide_eq_true_eq, not_or] at hfields
        exact hfields.1.2
      split
      · exact hinv
      · split
        · exact hensure
        · split
          · exact hensure
          · rename_i target htgt
            split
            · exact hensure
            · have hrowsne : msgRows (ensureGroup st thread.groupId).2 tid ≠ [] :=
                resolve_some_nonempty _ tid rid? target htgt
              apply inv_append (ensureGroup st thread.groupId).2 tid thread _ hth2 ?_ ?_
                hrowsne hensure
              · simp [rowOf, mkMessage, truthy?, htidne]
              · rfl

/-- One state transition of the system: wizard group provisioning,
the three mutating HTTP handlers, or the admin reset. The `hfresh`
hypotheses model primary-key freshness of `randomUUID`/wizard ids. -/
inductive Step : DB → DB → Prop where
  | wizardGroup (st : DB) (g : GroupRow) (hfresh : dbGetGroup st g.id = none) :
      Step st (dbCreateGroup st g)
  | wizardUpdate (st : DB) (g : GroupRow) : Step st (dbUpdateGroup st g)
  | write (st : DB) (groupId fromAgent : String) (toRaw : ToField) (body : String)
      (subject? : Option String) (freshTid : String)
      (hfresh : dbGetThread st freshTid = none) :
      Step st (writeEmail st groupId fromAgent toRaw body subject? freshTid).1
  | reply (st : DB) (gid? : Option String) (tid : String) (rid? : Option String)
      (fromAgent body : String) :
      Step st (replyEmail st gid? tid rid? fromAgent body).1
  | replyAll (st : DB) (gid? : Option String) (tid : String) (rid? : Option String)
      (fromAgent body : String) :
      Step st (replyAllEmail st gid? tid rid? fromAgent body).1
  | reset (st : DB) : Step st emptyDB

/-- States reachable from the freshly initialised database. -/
inductive Reachable : DB → Prop where
  | init : Reachable emptyDB
  | step (st st2 : DB) (h1 : Reachable st) (h2 : Step st st2) : Reachable st2

/-- Every step preserves the invariant. -/
theorem inv_step (st st2 : DB) (h : Step st st2) (hinv : DBInv st) : DBInv st2 := by
  cases h with
  | wizardGroup g hfresh => exact inv_of_same_tables st _ rfl rfl hinv
  | wizardUpdate g => exact inv_of_same_tables st _ rfl rfl hinv
  | write groupId fromAgent toRaw body subject? freshTid hfresh =>
    exact inv_writeEmail st groupId fromAgent toRaw body subject? freshTid hfresh hinv
  | reply gid? tid rid? fromAgent body =>
    exact inv_replyEmail st gid? tid rid? fromAgent body hinv
  | replyAll gid? tid rid? fromAgent body =>
    exact inv_replyAllEmail st gid? tid rid? fromAgent body hinv
  | reset => exact inv_emptyDB

/-- Every reachable state satisfies the invariant. -/
theorem inv_reachable (st : DB) (h : Reachable st) : DBInv st := by
  induction h with
  | init => exact inv_emptyDB
  | step st st2 h1 h2 ih => exact inv_step st st2 h2 ih

/-- C2: in every reachable state, the message ids returned by
`listMessagesByThread` for an existing thread form exactly the sequence
`"0","1","2",...` with no gaps or repeats, and the thread's stored
`lastIndex` is the id of the most recently appended message (sentinel
`"0"` when the thread stores no messages). -/
theorem thread_ids_invariant (st : DB) (hreach : Reachable st) (tid : String) (th : ThreadRow)
    (hth : dbGetThread st tid = some th) :
    (listMessagesByThread st tid).map (fun m => m.messageid) =
      canonicalIds (listMessagesByThread st tid).length ∧
    th.lastIndex = (if (listMessagesByThread st tid).length = 0 then "0"
      else natToStr ((listMessagesByThread st tid).length - 1)) := by
  obtain ⟨hnodup, hfk, hok⟩ := inv_reachable st hreach
  have hthmem := List.mem_of_find?_eq_some hth
  have hthtid : th.threadId = tid := by simpa using List.find?_some hth
  have hcur := hok th hthmem
  unfold threadOK at hcur
  rw [hthtid] at hcur
  have hmidnodup : ((msgRows st tid).map (fun m => m.messageid)).Nodup := by
    rw [hcur.1]
    exact canonicalIds_nodup _
  have hlist : listMessagesByThread st tid = msgRows st tid :=
    listMessagesByThread_eq_msgRows st tid hmidnodup
  rw [hlist]
  exact hcur

/-- Witness for C2: the state reached by provisioning `@g` and writing
one email has thread `T1` with ids `["0"]` and `lastIndex "0"`. -/
theorem thread_ids_invariant_witness :
    (listMessagesByThread sampleDB1 "T1").map (fun m => m.messageid) =
      canonicalIds (listMessagesByThread sampleDB1 "T1").length ∧
    ("0" : String) = (if (listMessagesByThread sampleDB1 "T1").length = 0 then "0"
      else natToStr ((listMessagesByThread sampleDB1 "T1").length - 1)) :=
  thread_ids_invariant sampleDB1
    (Reachable.step sampleDB0 sampleDB1
      (Reachable.step emptyDB sampleDB0 Reachable.init
        (Step.wizardGroup emptyDB sampleGroup (by decide)))
      (Step.write sampleDB0 "@g" "alice" (.arr ["bob"]) "hello" (some "Hi") "T1" (by decide)))
    "T1" ⟨"T1", "@g", "Hi", "alice", "0"⟩ (by decide)
